import Mathlib

/-!
Verification development for the rate-limiting mixin of `requests_ratelimiter`.

The Python module is embedded shallowly:

* numeric rate parameters (`per_second`, ..., `per_month`, `burst`) are modelled
  as natural numbers (counts and whole-second intervals; all verified claims
  concern integral rates);
* timestamps produced by the limiter time source are rationals;
* the dictionary literal used in `__init__` to translate rate parameters is
  modelled as an association list with Python dict-literal semantics (a later
  duplicate key overwrites the value in place);
* external collaborators (the `pyrate_limiter` bucket and limiter, `urlparse`,
  `uuid4`) are not part of this repository; they are modelled from the
  interface the specification gives for them, and each such definition says so
  in its doc comment.
-/

namespace RequestsRatelimiter

/-- Interval durations in seconds, as exported by the limiter library
(`Duration.SECOND` etc.): SECOND = 1, MINUTE = 60, HOUR = 3600,
DAY = 24 hours, MONTH = 30 days. -/
def Duration.SECOND : Nat := 1

/-- Sixty seconds. -/
def Duration.MINUTE : Nat := 60

/-- Thirty-six hundred seconds. -/
def Duration.HOUR : Nat := 3600

/-- Twenty-four hours in seconds. -/
def Duration.DAY : Nat := 86400

/-- Thirty days in seconds. -/
def Duration.MONTH : Nat := 2592000

/-- A request rate, `RequestRate(limit, interval)` of the limiter library:
at most `limit` requests per `interval` seconds. -/
structure RequestRate where
  limit : Nat
  interval : Nat
deriving DecidableEq, Repr

/-- Python dict-literal insertion: inserting a key that is already present
overwrites the value at the position of the first occurrence; a fresh key is
appended at the end. -/
def dictInsert (d : List (Nat × Nat)) (k v : Nat) : List (Nat × Nat) :=
  if d.any (fun p => p.1 == k) then d.map (fun p => if p.1 == k then (k, v) else p)
  else d ++ [(k, v)]

/-- The dict literal of `LimiterMixin.__init__` mapping interval to limit:
`{Duration.SECOND * burst: per_second * burst, Duration.MINUTE: per_minute,
Duration.HOUR: per_hour, Duration.DAY: per_day, Duration.MONTH: per_month}`,
with Python duplicate-key semantics. -/
def rateDict (per_second per_minute per_hour per_day per_month burst : Nat) :
    List (Nat × Nat) :=
  [(Duration.SECOND * burst, per_second * burst),
   (Duration.MINUTE, per_minute),
   (Duration.HOUR, per_hour),
   (Duration.DAY, per_day),
   (Duration.MONTH, per_month)].foldl (fun d kv => dictInsert d kv.1 kv.2) []

/-- The rate list built by `LimiterMixin.__init__`:
`[RequestRate(limit, interval) for interval, limit in {...}.items() if limit]`
(a zero limit is falsy and is skipped). -/
def buildRates (per_second per_minute per_hour per_day per_month burst : Nat) :
    List RequestRate :=
  (rateDict per_second per_minute per_hour per_day per_month burst).filterMap
    (fun kv => if kv.2 ≠ 0 then some ⟨kv.2, kv.1⟩ else none)

/-- The rate list as the amended specification describes it: one entry per
convenience parameter, in order second/minute/hour/day/month, the per-second
entry scaled by `burst` and present exactly when `per_second * burst` is
nonzero, each other entry present exactly when its parameter is nonzero and
untouched by `burst`. -/
def specRatesAmended (per_second per_minute per_hour per_day per_month burst : Nat) :
    List RequestRate :=
  (if per_second * burst ≠ 0 then [⟨per_second * burst, Duration.SECOND * burst⟩] else []) ++
  (if per_minute ≠ 0 then [⟨per_minute, Duration.MINUTE⟩] else []) ++
  (if per_hour ≠ 0 then [⟨per_hour, Duration.HOUR⟩] else []) ++
  (if per_day ≠ 0 then [⟨per_day, Duration.DAY⟩] else []) ++
  (if per_month ≠ 0 then [⟨per_month, Duration.MONTH⟩] else [])

example : buildRates 1 0 0 0 0 60 = [] := by decide

example : buildRates 5 10 0 0 0 60 = [⟨10, 60⟩] := by decide

example : buildRates 2 3 0 4 5 1 = specRatesAmended 2 3 0 4 5 1 := by decide

/-- A prepared outgoing request; this core reads only its target URL. -/
structure PreparedRequest where
  url : String
deriving DecidableEq, Repr

/-- A response; this core reads only its status code. -/
structure Response where
  status_code : Nat
deriving DecidableEq, Repr

/-- Text following the first occurrence of a double slash, when there is one. -/
def afterDoubleSlash : List Char → Option (List Char)
  | '/' :: '/' :: rest => some rest
  | _ :: rest => afterDoubleSlash rest
  | [] => none

/-- Modelled from the spec: the network location (`host[:port]`) component the
URL-parsing collaborator extracts from a target URL — the text after the first
scheme separator `//`, up to the next path, query or fragment delimiter; a URL
without a network location yields the empty string. -/
def urlNetloc (url : String) : String :=
  match afterDoubleSlash url.data with
  | some rest => ⟨rest.takeWhile (fun c => c != '/' && c != '?' && c != '#')⟩
  | none => ""

example : urlNetloc "https://example.com:8080/path?q=1" = "example.com:8080" := by decide

example : urlNetloc "mailto:someone" = "" := by decide

/-- A bucket key: either the network location of the target host (per-host
mode) or the fixed per-instance identifier generated at construction time. -/
inductive BucketKey where
  | host (netloc : String)
  | uuid (n : Nat)
deriving DecidableEq, Repr

/-- A limiter bucket: the multiset of recorded event timestamps, kept as the
list of values handed to `put`, oldest first. Modelled from the spec: the
bucket collaborator records events and reports how many fall in a trailing
window. -/
structure Bucket where
  items : List ℚ
deriving DecidableEq, Repr

/-- Modelled from the spec: `bucket.put(timestamp)` records one event. -/
def Bucket.put (b : Bucket) (timestamp : ℚ) : Bucket :=
  ⟨b.items ++ [timestamp]⟩

/-- Modelled from the spec: the count component of
`bucket.inspect_expired_items(time)` — how many recorded events are strictly
newer than `time`, i.e. lie in the trailing window that starts at `time`. -/
def Bucket.inspect_expired_items (b : Bucket) (time : ℚ) : Nat :=
  b.items.countP (fun item => decide (time < item))

/-- The mutable state owned by the limiter collaborator: the current value of
its time source and the bucket group, a total map from bucket key to bucket
(a key that was never written holds the empty bucket, matching lazy per-key
creation). -/
structure LimiterState where
  now : ℚ
  group : BucketKey → Bucket

/-- Point update of a bucket group, as `bucket_group[key] = ...`. -/
def setBucket (g : BucketKey → Bucket) (k : BucketKey) (b : Bucket) :
    BucketKey → Bucket :=
  fun k₂ => if k₂ = k then b else g k₂

/-- The construction-time configuration and identity of a `LimiterMixin`
instance: the translated rate list, the limit-exceeded status set, the maximum
delay, the per-host flag, and the fixed default bucket identifier
(`str(uuid4())`, modelled as a natural drawn from a fresh-identifier supply). -/
structure LimiterMixin where
  rates : List RequestRate
  limit_statuses : List Nat
  max_delay : Option ℚ
  per_host : Bool
  default_bucket : Nat

/-- `LimiterMixin.__init__`: translates the convenience rate parameters into
the rate list, stores the configuration, and draws the fixed default bucket
identifier from the supply (modelling `uuid4`, whose successive draws are
distinct); returns the instance together with the advanced supply. -/
def mkLimiterMixin (per_second per_minute per_hour per_day per_month burst : Nat)
    (max_delay : Option ℚ) (per_host : Bool) (limit_statuses : List Nat)
    (uuidSupply : Nat) : LimiterMixin × Nat :=
  ({ rates := buildRates per_second per_minute per_hour per_day per_month burst,
     limit_statuses := limit_statuses,
     max_delay := max_delay,
     per_host := per_host,
     default_bucket := uuidSupply }, uuidSupply + 1)

/-- `LimiterMixin._bucket_name(request)`: the network location of the request
URL in per-host mode, the fixed per-instance identifier otherwise. -/
def LimiterMixin.bucket_name (self : LimiterMixin) (request : PreparedRequest) :
    BucketKey :=
  if self.per_host then .host (urlNetloc request.url) else .uuid self.default_bucket

/-- `LimiterMixin._fill_bucket(request)`: reads the current limiter time, takes
the first configured rate, counts the events recorded in the trailing window of
that rate, and puts `rate.limit - item_count` filler events (none when the
difference is not positive, as `range` of a non-positive number is empty), each
timestamped at the current time. The empty-rates branch is unreachable: the
limiter requires at least one rate, and `_rates[0]` would fail there. -/
def LimiterMixin.fill_bucket (self : LimiterMixin) (st : LimiterState)
    (request : PreparedRequest) : LimiterState :=
  let bucket := st.group (self.bucket_name request)
  let now := st.now
  match self.rates with
  | [] => st
  | rate :: _ =>
    let item_count := bucket.inspect_expired_items (now - (rate.interval : ℚ))
    { st with
      group := setBucket st.group (self.bucket_name request)
        ((List.range (rate.limit - item_count)).foldl (fun b _ => b.put now) bucket) }

/-- Outcome of asking the limiter collaborator for capacity. Modelled from the
spec: `acquire(key, wait=true, max_wait=max_delay)` either admits the request —
returning the limiter state after any waiting and after consuming capacity —
or reports that the bucket is full because the wait would exceed the maximum
delay. -/
inductive AcquireRes where
  | admitted (st : LimiterState)
  | bucketFull

/-- An error surfaced by `send`: either the BucketFull condition originated by
the rate-limiting core, or an error of the underlying transport, propagated
as-is (the constructor is only the sum-type tag of the embedding). -/
inductive SendError (ε : Type) where
  | bucketFull
  | transport (e : ε)
deriving DecidableEq

/-- What one call to `send` produces: the returned response or raised error,
the limiter state afterwards, and the list of requests that were passed to the
underlying transport during the call (empty exactly when the underlying send
was never invoked). -/
structure SendResult (ε : Type) where
  result : Except (SendError ε) Response
  state : LimiterState
  transport_calls : List PreparedRequest

/-- `LimiterMixin.send(request)`: resolve the bucket key, acquire capacity from
the limiter (raising BucketFull without touching the transport when the wait
would exceed the maximum delay), delegate to the underlying transport send
(propagating its error unchanged), then, if the status code is in the
limit-exceeded set, run the catch-up filler before returning the response
exactly as received. `acquireFn` is the limiter collaborator and `transport`
the underlying send operation, both external to this core. -/
def LimiterMixin.send {ε : Type} (self : LimiterMixin)
    (acquireFn : LimiterState → BucketKey → AcquireRes)
    (transport : PreparedRequest → Except ε Response)
    (st : LimiterState) (request : PreparedRequest) : SendResult ε :=
  match acquireFn st (self.bucket_name request) with
  | .bucketFull => ⟨.error .bucketFull, st, []⟩
  | .admitted st₁ =>
    match transport request with
    | .error e => ⟨.error (.transport e), st₁, [request]⟩
    | .ok response =>
      if response.status_code ∈ self.limit_statuses then
        ⟨.ok response, self.fill_bucket st₁ request, [request]⟩
      else
        ⟨.ok response, st₁, [request]⟩

/-- Modelled from the spec: the limiter has capacity for one more request at
time `t` exactly when, for every configured rate, the count of recorded events
in the trailing window of that rate is below its limit. -/
def canAdmit (rates : List RequestRate) (b : Bucket) (t : ℚ) : Bool :=
  rates.all (fun r => decide (b.inspect_expired_items (t - (r.interval : ℚ)) < r.limit))

/-- Modelled from the spec: one acquire call that returns at limiter time `t`
(after any waiting): it admits when the bucket for the key has capacity at `t`,
consuming one slot by recording the request at `t`; otherwise it reports the
bucket full. -/
def specAcquireAt (rates : List RequestRate) (t : ℚ) (st : LimiterState)
    (key : BucketKey) : AcquireRes :=
  let b := st.group key
  if canAdmit rates b t then
    .admitted { now := t, group := setBucket st.group key (b.put t) }
  else .bucketFull

/-- A run in which the underlying transport answers HTTP 429 on every call:
one `send` per element of the time list, the i-th acquire returning at the i-th
time. -/
def run429 (self : LimiterMixin) (request : PreparedRequest) :
    LimiterState → List ℚ → LimiterState
  | st, [] => st
  | st, t :: ts =>
      run429 self request
        (@LimiterMixin.send Unit self (specAcquireAt self.rates t)
          (fun _ => Except.ok ⟨429⟩) st request).state
        ts

lemma countP_replicate (p : ℚ → Bool) (n : Nat) (a : ℚ) :
    (List.replicate n a).countP p = if p a then n else 0 := by
  induction n with
  | zero => simp
  | succ n ih =>
      rw [List.replicate_succ, List.countP_cons]
      rcases h : p a with _ | _ <;> simp [ih, h]

lemma foldl_put_items (now : ℚ) :
    ∀ (n : Nat) (b : Bucket),
      ((List.range n).foldl (fun bb _ => bb.put now) b).items =
        b.items ++ List.replicate n now := by
  intro n
  induction n with
  | zero => intro b; simp
  | succ n ih =>
      intro b
      rw [List.range_succ, List.foldl_append]
      simp only [List.foldl_cons, List.foldl_nil]
      have step : ∀ bb : Bucket, (bb.put now).items = bb.items ++ [now] := fun bb => rfl
      rw [step, ih b, List.append_assoc, ← List.replicate_succ']

lemma setBucket_same (g : BucketKey → Bucket) (k : BucketKey) (b : Bucket) :
    setBucket g k b k = b := by
  simp [setBucket]

lemma fill_bucket_items (self : LimiterMixin) (st : LimiterState)
    (request : PreparedRequest) (rate : RequestRate) (rest : List RequestRate)
    (hrates : self.rates = rate :: rest) :
    ((self.fill_bucket st request).group (self.bucket_name request)).items =
      (st.group (self.bucket_name request)).items ++
        List.replicate
          (rate.limit -
            (st.group (self.bucket_name request)).inspect_expired_items
              (st.now - (rate.interval : ℚ)))
          st.now := by
  simp only [LimiterMixin.fill_bucket, hrates]
  rw [setBucket_same, foldl_put_items]

lemma fill_bucket_now (self : LimiterMixin) (st : LimiterState)
    (request : PreparedRequest) : (self.fill_bucket st request).now = st.now := by
  simp only [LimiterMixin.fill_bucket]
  rcases self.rates with _ | ⟨r, rs⟩ <;> rfl

/-- C1: when the catch-up filler runs on a bucket with `c` events recorded in
the trailing window of the first configured rate (limit `L`, measured at the
current limiter time), it appends exactly `max 0 (L - c)` filler events to that
bucket, each timestamped at the current limiter time, and changes nothing else
about the bucket contents. -/
theorem c1_fill_inserts_deficit (self : LimiterMixin) (st : LimiterState)
    (request : PreparedRequest) (rate : RequestRate) (rest : List RequestRate)
    (hrates : self.rates = rate :: rest) :
    ((self.fill_bucket st request).group (self.bucket_name request)).items =
      (st.group (self.bucket_name request)).items ++
        List.replicate
          (rate.limit -
            (st.group (self.bucket_name request)).inspect_expired_items
              (st.now - (rate.interval : ℚ)))
          st.now
    ∧ (((self.fill_bucket st request).group (self.bucket_name request)).items.length : ℤ) =
        ((st.group (self.bucket_name request)).items.length : ℤ) +
          max 0 ((rate.limit : ℤ) -
            ((st.group (self.bucket_name request)).inspect_expired_items
              (st.now - (rate.interval : ℚ)) : ℤ)) := by
  refine ⟨fill_bucket_items self st request rate rest hrates, ?_⟩
  rw [fill_bucket_items self st request rate rest hrates]
  rw [List.length_append, List.length_replicate]
  omega

/-- Fixture: a mixin configured with a single rate of 5 requests per minute. -/
def mixinC1 : LimiterMixin :=
  { rates := [⟨5, 60⟩], limit_statuses := [429], max_delay := none,
    per_host := true, default_bucket := 0 }

/-- Fixture: a limiter state at time 100 whose every bucket holds events at
50, 90 and 95 — three of them inside the trailing 60-second window. -/
def stC1 : LimiterState :=
  { now := 100, group := fun _ => ⟨[50, 90, 95]⟩ }

/-- Fixture request. -/
def reqC1 : PreparedRequest := ⟨"https://example.com/a"⟩

/-- Witness for C1: with 3 recorded events in the window and a limit of 5,
exactly 2 filler events are appended, both timestamped at the current time. -/
theorem c1_fill_inserts_deficit_witness :
    mixinC1.rates = [⟨5, 60⟩] ∧
    ((mixinC1.fill_bucket stC1 reqC1).group (mixinC1.bucket_name reqC1)).items =
      [50, 90, 95, 100, 100] := by
  refine ⟨rfl, ?_⟩
  have h := (c1_fill_inserts_deficit mixinC1 stC1 reqC1 ⟨5, 60⟩ [] rfl).1
  rw [h]
  norm_num [stC1, Bucket.inspect_expired_items, List.countP_cons, List.countP_nil]
  rfl

lemma canAdmit_head (rate : RequestRate) (rest : List RequestRate) (b : Bucket)
    (t : ℚ) (h : canAdmit (rate :: rest) b t = true) :
    b.inspect_expired_items (t - (rate.interval : ℚ)) < rate.limit := by
  have h₂ := List.all_eq_true.mp h rate (List.mem_cons_self rate rest)
  exact of_decide_eq_true h₂

lemma put_inspect (b : Bucket) (t cutoff : ℚ) :
    (b.put t).inspect_expired_items cutoff =
      b.inspect_expired_items cutoff + (if cutoff < t then 1 else 0) := by
  simp only [Bucket.put, Bucket.inspect_expired_items, List.countP_append,
    List.countP_cons, List.countP_nil]
  rcases Decidable.em (cutoff < t) with h | h <;> simp [h]

lemma send429_step_count (self : LimiterMixin) (request : PreparedRequest)
    (rate : RequestRate) (rest : List RequestRate)
    (hrates : self.rates = rate :: rest) (h429 : (429 : Nat) ∈ self.limit_statuses)
    (st : LimiterState) (t : ℚ)
    (hinv : (st.group (self.bucket_name request)).inspect_expired_items
        (st.now - (rate.interval : ℚ)) ≤ rate.limit) :
    (((@LimiterMixin.send Unit self (specAcquireAt self.rates t)
          (fun _ => Except.ok ⟨429⟩) st request).state).group
        (self.bucket_name request)).inspect_expired_items
      (((@LimiterMixin.send Unit self (specAcquireAt self.rates t)
          (fun _ => Except.ok ⟨429⟩) st request).state).now - (rate.interval : ℚ)) ≤
      rate.limit := by
  rcases hadm : canAdmit self.rates (st.group (self.bucket_name request)) t with _ | _
  · simp only [LimiterMixin.send, specAcquireAt, hadm, Bool.false_eq_true, if_false]
    exact hinv
  · have hlt := canAdmit_head rate rest (st.group (self.bucket_name request)) t
      (by rw [← hrates]; exact hadm)
    simp only [LimiterMixin.send, specAcquireAt, hadm, if_true, h429, if_pos]
    have hkey := setBucket_same st.group (self.bucket_name request)
      ((st.group (self.bucket_name request)).put t)
    have hfill := fill_bucket_items self
      { now := t, group := setBucket st.group (self.bucket_name request)
          ((st.group (self.bucket_name request)).put t) }
      request rate rest hrates
    have hnow := fill_bucket_now self
      { now := t, group := setBucket st.group (self.bucket_name request)
          ((st.group (self.bucket_name request)).put t) }
      request
    rw [Bucket.inspect_expired_items, hnow, hfill]
    simp only [hkey]
    rw [List.countP_append, countP_replicate]
    have hc : List.countP (fun item => decide (t - (rate.interval : ℚ) < item))
        ((st.group (self.bucket_name request)).put t).items =
        ((st.group (self.bucket_name request)).put t).inspect_expired_items
          (t - (rate.interval : ℚ)) := rfl
    rw [hc, put_inspect]
    rcases Decidable.em (t - (rate.interval : ℚ) < t) with hc₂ | hc₂ <;>
      simp [hc₂] <;> omega

lemma run429_count_le (self : LimiterMixin) (request : PreparedRequest)
    (rate : RequestRate) (rest : List RequestRate)
    (hrates : self.rates = rate :: rest) (h429 : (429 : Nat) ∈ self.limit_statuses) :
    ∀ (ts : List ℚ) (st : LimiterState),
      (st.group (self.bucket_name request)).inspect_expired_items
          (st.now - (rate.interval : ℚ)) ≤ rate.limit →
      ((run429 self request st ts).group (self.bucket_name request)).inspect_expired_items
          ((run429 self request st ts).now - (rate.interval : ℚ)) ≤ rate.limit := by
  intro ts
  induction ts with
  | nil => intro st h; simpa [run429] using h
  | cons t ts ih =>
      intro st h
      rw [run429]
      exact ih _ (send429_step_count self request rate rest hrates h429 st t h)

/-- C2: starting from a fresh (empty) bucket, if the transport answers HTTP 429
on every call, then after any number of sends — each of which triggers one
catch-up fill — the number of events recorded in the trailing window of the
first configured rate, measured at the current limiter time, never exceeds that
rate's limit: the fill caps at the limit and never overshoots. -/
theorem c2_fill_never_overshoots (self : LimiterMixin) (request : PreparedRequest)
    (rate : RequestRate) (rest : List RequestRate) (st : LimiterState) (ts : List ℚ)
    (hrates : self.rates = rate :: rest) (h429 : (429 : Nat) ∈ self.limit_statuses)
    (hfresh : (st.group (self.bucket_name request)).items = []) :
    ((run429 self request st ts).group (self.bucket_name request)).inspect_expired_items
        ((run429 self request st ts).now - (rate.interval : ℚ)) ≤ rate.limit := by
  apply run429_count_le self request rate rest hrates h429 ts st
  simp [Bucket.inspect_expired_items, hfresh]

/-- Fixture: a mixin with a single rate of 2 requests per minute. -/
def mixinC2 : LimiterMixin :=
  { rates := [⟨2, 60⟩], limit_statuses := [429], max_delay := none,
    per_host := true, default_bucket := 0 }

/-- Fixture: a fresh limiter state with every bucket empty. -/
def stC2 : LimiterState := { now := 0, group := fun _ => ⟨[]⟩ }

/-- Witness for C2: three consecutive 429-producing sends against a fresh
bucket with a limit of 2 leave at most 2 events in the trailing window. -/
theorem c2_fill_never_overshoots_witness :
    mixinC2.rates = [⟨2, 60⟩] ∧ (429 : Nat) ∈ mixinC2.limit_statuses ∧
    (stC2.group (mixinC2.bucket_name reqC1)).items = [] ∧
    ((run429 mixinC2 reqC1 stC2 [1, 2, 3]).group (mixinC2.bucket_name reqC1)).inspect_expired_items
        ((run429 mixinC2 reqC1 stC2 [1, 2, 3]).now - ((60 : Nat) : ℚ)) ≤ 2 := by
  refine ⟨rfl, by decide, rfl, ?_⟩
  exact c2_fill_never_overshoots mixinC2 reqC1 ⟨2, 60⟩ [] stC2 [1, 2, 3] rfl
    (by decide) rfl

/-- C3: when acquiring capacity would require waiting longer than the
configured maximum delay — i.e. the limiter collaborator reports BucketFull —
`send` surfaces the BucketFull error to the caller, never invokes the
underlying transport, and leaves the limiter state untouched; moreover every
error `send` can surface is either this BucketFull condition or an error of the
underlying transport passed through, so BucketFull is the only error the core
itself originates. -/
theorem c3_bucket_full_fails_fast {ε : Type} (self : LimiterMixin)
    (acquireFn : LimiterState → BucketKey → AcquireRes)
    (transport : PreparedRequest → Except ε Response)
    (st : LimiterState) (request : PreparedRequest) :
    (acquireFn st (self.bucket_name request) = .bucketFull →
      (self.send acquireFn transport st request).result = .error .bucketFull ∧
      (self.send acquireFn transport st request).transport_calls = [] ∧
      (self.send acquireFn transport st request).state = st) ∧
    (∀ err, (self.send acquireFn transport st request).result = .error err →
      err = .bucketFull ∨ ∃ e, err = .transport e ∧ transport request = .error e) := by
  constructor
  · intro hfull
    simp [LimiterMixin.send, hfull]
  · intro err herr
    rcases hacq : acquireFn st (self.bucket_name request) with st₁ | _
    · rcases htr : transport request with e | response
      · simp only [LimiterMixin.send, hacq, htr] at herr
        injection herr with h
        exact Or.inr ⟨e, h.symm, rfl⟩
      · simp only [LimiterMixin.send, hacq, htr] at herr
        rcases Decidable.em (response.status_code ∈ self.limit_statuses) with hs | hs <;>
          simp [hs] at herr
    · simp only [LimiterMixin.send, hacq] at herr
      injection herr with h
      exact Or.inl h.symm

/-- Fixture: an acquire collaborator that always reports a full bucket. -/
def acquireFullC3 : LimiterState → BucketKey → AcquireRes := fun _ _ => .bucketFull

/-- Fixture: a transport that always answers 200. -/
def transport200 : PreparedRequest → Except Unit Response := fun _ => .ok ⟨200⟩

/-- Witness for C3: with an acquire collaborator reporting BucketFull, `send`
returns the BucketFull error, calls the transport zero times and leaves the
state unchanged. -/
theorem c3_bucket_full_fails_fast_witness :
    acquireFullC3 stC2 (mixinC2.bucket_name reqC1) = .bucketFull ∧
    (mixinC2.send acquireFullC3 transport200 stC2 reqC1).result = .error .bucketFull ∧
    (mixinC2.send acquireFullC3 transport200 stC2 reqC1).transport_calls = [] ∧
    (mixinC2.send acquireFullC3 transport200 stC2 reqC1).state = stC2 := by
  have h := (c3_bucket_full_fails_fast mixinC2 acquireFullC3 transport200 stC2 reqC1).1 rfl
  exact ⟨rfl, h.1, h.2.1, h.2.2⟩

/-- C4: whenever the transport produces a response, `send` returns that exact
response, and the state it leaves behind is the post-acquire state with the
catch-up filler applied to it — invoked with the same request, hence the same
bucket key — exactly when the status code belongs to the configured
limit-exceeded status set, and the post-acquire state untouched otherwise. -/
theorem c4_fill_iff_limit_status {ε : Type} (self : LimiterMixin)
    (acquireFn : LimiterState → BucketKey → AcquireRes)
    (transport : PreparedRequest → Except ε Response)
    (st st₁ : LimiterState) (request : PreparedRequest) (response : Response)
    (hacq : acquireFn st (self.bucket_name request) = .admitted st₁)
    (htr : transport request = .ok response) :
    (self.send acquireFn transport st request).result = .ok response ∧
    (self.send acquireFn transport st request).state =
      (if response.status_code ∈ self.limit_statuses
        then self.fill_bucket st₁ request else st₁) := by
  rcases Decidable.em (response.status_code ∈ self.limit_statuses) with hs | hs <;>
    simp [LimiterMixin.send, hacq, htr, hs]

/-- Fixture: an acquire collaborator that admits every request without
changing the limiter state. -/
def acquireIdC4 : LimiterState → BucketKey → AcquireRes := fun st _ => .admitted st

/-- Fixture: a transport that always answers 429. -/
def transport429 : PreparedRequest → Except Unit Response := fun _ => .ok ⟨429⟩

/-- Witness for C4: a 429 response (member of the default limit-exceeded set)
is returned exactly as received and the state returned is the filled one. -/
theorem c4_fill_iff_limit_status_witness :
    acquireIdC4 stC2 (mixinC2.bucket_name reqC1) = .admitted stC2 ∧
    transport429 reqC1 = .ok ⟨429⟩ ∧
    (mixinC2.send acquireIdC4 transport429 stC2 reqC1).result = .ok ⟨429⟩ ∧
    (mixinC2.send acquireIdC4 transport429 stC2 reqC1).state =
      (if (429 : Nat) ∈ mixinC2.limit_statuses
        then mixinC2.fill_bucket stC2 reqC1 else stC2) := by
  have h := c4_fill_iff_limit_status mixinC2 acquireIdC4 transport429 stC2 stC2 reqC1
    ⟨429⟩ rfl rfl
  exact ⟨rfl, rfl, h.1, h.2⟩

/-- C9: when the underlying transport raises, `send` propagates that very
error unchanged, performs no catch-up fill (the state stays exactly the
post-acquire state), and the transport was invoked once with the original
request. -/
theorem c9_transport_error_propagates {ε : Type} (self : LimiterMixin)
    (acquireFn : LimiterState → BucketKey → AcquireRes)
    (transport : PreparedRequest → Except ε Response)
    (st st₁ : LimiterState) (request : PreparedRequest) (e : ε)
    (hacq : acquireFn st (self.bucket_name request) = .admitted st₁)
    (htr : transport request = .error e) :
    (self.send acquireFn transport st request).result = .error (.transport e) ∧
    (self.send acquireFn transport st request).state = st₁ ∧
    (self.send acquireFn transport st request).transport_calls = [request] := by
  simp [LimiterMixin.send, hacq, htr]

/-- Fixture: a transport that always fails. -/
def transportFail : PreparedRequest → Except Nat Response := fun _ => .error 7

/-- Witness for C9: a failing transport call surfaces its own error through
`send`, with no fill applied to the state. -/
theorem c9_transport_error_propagates_witness :
    acquireIdC4 stC2 (mixinC2.bucket_name reqC1) = .admitted stC2 ∧
    transportFail reqC1 = .error 7 ∧
    (mixinC2.send acquireIdC4 transportFail stC2 reqC1).result = .error (.transport 7) ∧
    (mixinC2.send acquireIdC4 transportFail stC2 reqC1).state = stC2 ∧
    (mixinC2.send acquireIdC4 transportFail stC2 reqC1).transport_calls = [reqC1] := by
  have h := c9_transport_error_propagates mixinC2 acquireIdC4 transportFail stC2 stC2
    reqC1 7 rfl rfl
  exact ⟨rfl, rfl, h.1, h.2.1, h.2.2⟩

/-- C5: the catch-up filler reads the rate it uses directly as the first entry
of the configured rate list — its behaviour is unchanged by whatever follows
the first entry — and when the list is sorted ascending by interval (the
documented precondition, nowhere enforced), that first entry has the smallest
interval of all configured rates. -/
theorem c5_first_rate_used (self : LimiterMixin) (rate : RequestRate)
    (rs₁ rs₂ : List RequestRate) (st : LimiterState) (request : PreparedRequest) :
    ({ self with rates := rate :: rs₁ } : LimiterMixin).fill_bucket st request =
      ({ self with rates := rate :: rs₂ } : LimiterMixin).fill_bucket st request ∧
    (List.Sorted (fun a b => a.interval ≤ b.interval) (rate :: rs₁) →
      ∀ r ∈ rate :: rs₁, rate.interval ≤ r.interval) := by
  constructor
  · rfl
  · intro hsorted r hr
    rcases List.mem_cons.mp hr with h | h
    · rw [h]
    · exact (List.sorted_cons.mp hsorted).1 r h

/-- Witness for C5: with rates sorted ascending, the first rate of the C2
fixture has the smallest interval; the tail-independence part is instantiated
with two different tails. -/
theorem c5_first_rate_used_witness :
    ({ mixinC2 with rates := [⟨2, 60⟩] } : LimiterMixin).fill_bucket stC2 reqC1 =
      ({ mixinC2 with rates := [⟨2, 60⟩, ⟨90, 3600⟩] } : LimiterMixin).fill_bucket stC2 reqC1 ∧
    List.Sorted (fun a b : RequestRate => a.interval ≤ b.interval) [⟨2, 60⟩] ∧
    ∀ r ∈ ([⟨2, 60⟩] : List RequestRate), (⟨2, 60⟩ : RequestRate).interval ≤ r.interval := by
  have h := c5_first_rate_used mixinC2 ⟨2, 60⟩ [] [⟨90, 3600⟩] stC2 reqC1
  exact ⟨h.1, by simp, h.2 (by simp)⟩

/-- C6: in per-host mode the bucket key is the network location parsed from
the request's target URL, and two requests share a bucket key exactly when
their URLs have the same network location. -/
theorem c6_per_host_key_is_netloc (self : LimiterMixin) (r₁ r₂ : PreparedRequest)
    (h : self.per_host = true) :
    self.bucket_name r₁ = .host (urlNetloc r₁.url) ∧
    (self.bucket_name r₁ = self.bucket_name r₂ ↔ urlNetloc r₁.url = urlNetloc r₂.url) := by
  constructor
  · simp [LimiterMixin.bucket_name, h]
  · simp [LimiterMixin.bucket_name, h]

/-- Fixture: a second request to the same host as `reqC1`, different path and
query. -/
def reqC6 : PreparedRequest := ⟨"https://example.com/b?q=2"⟩

/-- Witness for C6: two requests to `example.com` with different paths resolve
to the same per-host bucket key, the network location of the URL. -/
theorem c6_per_host_key_is_netloc_witness :
    mixinC2.per_host = true ∧
    mixinC2.bucket_name reqC1 = .host (urlNetloc reqC1.url) ∧
    urlNetloc reqC1.url = urlNetloc reqC6.url ∧
    mixinC2.bucket_name reqC1 = mixinC2.bucket_name reqC6 := by
  have h := c6_per_host_key_is_netloc mixinC2 reqC1 reqC6 rfl
  exact ⟨rfl, h.1, by decide, h.2.mpr (by decide)⟩

/-- C7: with per-host mode disabled, every request resolved through an
instance receives the same fixed bucket key, the identifier drawn at
construction time; and two instances built from distinct draws of the
fresh-identifier supply (modelling `uuid4`) never share that key, whatever
their other configuration. -/
theorem c7_fixed_key_per_instance
    (ps₁ pm₁ ph₁ pd₁ pmo₁ b₁ : Nat) (md₁ : Option ℚ) (ls₁ : List Nat)
    (ps₂ pm₂ ph₂ pd₂ pmo₂ b₂ : Nat) (md₂ : Option ℚ) (ls₂ : List Nat)
    (s₁ s₂ : Nat) (r₁ r₂ : PreparedRequest) (hs : s₁ ≠ s₂) :
    (∀ r : PreparedRequest,
      (mkLimiterMixin ps₁ pm₁ ph₁ pd₁ pmo₁ b₁ md₁ false ls₁ s₁).1.bucket_name r =
        .uuid s₁) ∧
    (mkLimiterMixin ps₁ pm₁ ph₁ pd₁ pmo₁ b₁ md₁ false ls₁ s₁).1.bucket_name r₁ ≠
      (mkLimiterMixin ps₂ pm₂ ph₂ pd₂ pmo₂ b₂ md₂ false ls₂ s₂).1.bucket_name r₂ := by
  constructor
  · intro r; rfl
  · intro hc
    simp [mkLimiterMixin, LimiterMixin.bucket_name] at hc
    exact hs hc

/-- Witness for C7: two instances, the second constructed from the supply
value the first construction returned, hold different fixed keys, and the
first resolves every request to its own key. -/
theorem c7_fixed_key_per_instance_witness :
    (0 : Nat) ≠ (mkLimiterMixin 1 0 0 0 0 1 none false [429] 0).2 ∧
    (∀ r : PreparedRequest,
      (mkLimiterMixin 1 0 0 0 0 1 none false [429] 0).1.bucket_name r = .uuid 0) ∧
    (mkLimiterMixin 1 0 0 0 0 1 none false [429] 0).1.bucket_name reqC1 ≠
      (mkLimiterMixin 0 60 0 0 0 1 none false [404]
        (mkLimiterMixin 1 0 0 0 0 1 none false [429] 0).2).1.bucket_name reqC6 := by
  have h := c7_fixed_key_per_instance 1 0 0 0 0 1 none [429] 0 60 0 0 0 1 none [404]
    0 (mkLimiterMixin 1 0 0 0 0 1 none false [429] 0).2 reqC1 reqC6 (by decide)
  exact ⟨by decide, h.1, h.2⟩

/-- Counterexample for C8 as stated: with `per_second = 1` (nonzero) and
`burst = 60`, the burst-scaled per-second interval collides with the minute
interval in the translation dict, the zero `per_minute` value overwrites the
per-second limit, and the resulting rate list is empty — it contains no entry
for the nonzero `per_second` parameter. -/
theorem c8_counterexample_burst_collision :
    buildRates 1 0 0 0 0 60 = [] ∧ (1 : Nat) ≠ 0 := by
  exact ⟨by decide, by decide⟩

/-- C8 (amended): provided the burst-scaled per-second interval
`SECOND * burst` differs from the minute, hour, day and month intervals (so no
dict-key collision occurs), the constructed rate list is exactly one entry per
convenience parameter in order: the per-second entry, scaled by burst and
present precisely when `per_second * burst` is nonzero, followed by the
minute, hour, day and month entries, each present precisely when its parameter
is nonzero and with limit and interval unaffected by burst. -/
theorem c8_rates_iff_nonzero (per_second per_minute per_hour per_day per_month burst : Nat)
    (h : Duration.SECOND * burst ∉
      [Duration.MINUTE, Duration.HOUR, Duration.DAY, Duration.MONTH]) :
    buildRates per_second per_minute per_hour per_day per_month burst =
      specRatesAmended per_second per_minute per_hour per_day per_month burst := by
  have h60 : ¬ Duration.SECOND * burst = Duration.MINUTE := fun hc => h (by simp [hc])
  have h3600 : ¬ Duration.SECOND * burst = Duration.HOUR := fun hc => h (by simp [hc])
  have h86400 : ¬ Duration.SECOND * burst = Duration.DAY := fun hc => h (by simp [hc])
  have h2592000 : ¬ Duration.SECOND * burst = Duration.MONTH := fun hc => h (by simp [hc])
  simp only [Duration.SECOND, Duration.MINUTE, Duration.HOUR, Duration.DAY,
    Duration.MONTH, one_mul] at h60 h3600 h86400 h2592000 ⊢
  by_cases h1 : per_second * burst = 0 <;> by_cases h2 : per_minute = 0 <;>
    by_cases h3 : per_hour = 0 <;> by_cases h4 : per_day = 0 <;>
    by_cases h5 : per_month = 0 <;>
    simp [buildRates, rateDict, dictInsert, specRatesAmended, Duration.SECOND,
      Duration.MINUTE, Duration.HOUR, Duration.DAY, Duration.MONTH,
      h60, h3600, h86400, h2592000, h1, h2, h3, h4, h5]

/-- Witness for C8 (amended): with burst 1 there is no interval collision, and
the rate list for `per_second=2, per_minute=3, per_hour=0, per_day=4,
per_month=5` is exactly the described four-entry list. -/
theorem c8_rates_iff_nonzero_witness :
    Duration.SECOND * 1 ∉
      [Duration.MINUTE, Duration.HOUR, Duration.DAY, Duration.MONTH] ∧
    buildRates 2 3 0 4 5 1 = specRatesAmended 2 3 0 4 5 1 := by
  exact ⟨by decide, c8_rates_iff_nonzero 2 3 0 4 5 1 (by decide)⟩

/-- C10: with `burst = 60` the burst-scaled per-second interval equals the
minute interval, so for nonzero `per_second` and `per_minute` the dict keys
collide and the per-minute value silently replaces the burst-scaled per-second
entry: only the single per-minute rate is enforced for that interval. -/
theorem c10_burst_minute_collision (s m : Nat) (hs : s ≠ 0) (hm : m ≠ 0) :
    Duration.SECOND * 60 = Duration.MINUTE ∧
    buildRates s m 0 0 0 60 = [⟨m, Duration.MINUTE⟩] := by
  refine ⟨rfl, ?_⟩
  simp [buildRates, rateDict, dictInsert, Duration.SECOND, Duration.MINUTE,
    Duration.HOUR, Duration.DAY, Duration.MONTH, hm]

/-- Witness for C10: `per_second = 5, per_minute = 10, burst = 60` yields the
single rate of 10 per minute; the 300-per-minute burst-scaled per-second rate
is gone. -/
theorem c10_burst_minute_collision_witness :
    (5 : Nat) ≠ 0 ∧ (10 : Nat) ≠ 0 ∧
    buildRates 5 10 0 0 0 60 = [⟨10, Duration.MINUTE⟩] := by
  exact ⟨by decide, by decide,
    (c10_burst_minute_collision 5 10 (by decide) (by decide)).2⟩

end RequestsRatelimiter
